import Mathlib

/-!
Shallow embedding of the Timeblock repository's scheduling core:
the in-memory entity store (src/server/storage.ts), the zod insert
schemas (src/shared/schema.ts), the date utilities
(src/TimeBlocker/client/src/lib/date-utils.ts), the drag-drop hook
(src/client/src/hooks/use-drag-drop.tsx), the view-state handlers
(src/client/src/pages/app.tsx) and the three drop handlers of the
Month/Day/Hour views.

JavaScript `null` and `undefined` are both embedded as `Option.none`
except where their difference is observable, which is noted in place.
JS `Map` insertion/overwrite semantics are embedded as a list of
entries where `set k v` removes any old entry for `k` and conses the
new one; none of the verified properties depend on iteration order.
-/

namespace Timeblock

/-- Priority enum of src/shared/schema.ts (`"low" | "medium" | "high"`). -/
inductive Priority where
  | low
  | medium
  | high
deriving DecidableEq, Repr

/-- A stored Note, as produced by `MemStorage.createNote`
(src/server/storage.ts): the parsed insert fields spread together with
`id`, `userId`, `createdAt`.  `priority` and `completed` are `Option`
because the JS spread copies them as-is: when the insert payload omits
them they are absent on the stored object (the pgTable defaults of
schema.ts are never applied by MemStorage). -/
structure Note where
  id : String
  userId : String
  title : String
  description : Option String
  priority : Option Priority
  completed : Option Nat
  createdAt : Nat
deriving DecidableEq, Repr

/-- A stored Task (src/shared/schema.ts `tasks` row as built by
`MemStorage.createTask`). -/
structure Task where
  id : String
  userId : String
  noteId : Option String
  title : String
  description : Option String
  priority : Option Priority
  date : String
  startTime : Option String
  duration : Option Int
  completed : Option Nat
  createdAt : Nat
deriving DecidableEq, Repr

/-- Parsed `insertNoteSchema` payload: `createInsertSchema(notes).omit
(id, userId, createdAt)`.  drizzle-zod makes nullable columns and
columns with a database default optional; it does not substitute the
default value, so the parse output carries `none` for omitted fields. -/
structure InsertNote where
  title : String
  description : Option String
  priority : Option Priority
  completed : Option Nat
deriving DecidableEq, Repr

/-- Parsed `insertTaskSchema` payload. -/
structure InsertTask where
  noteId : Option String
  title : String
  description : Option String
  priority : Option Priority
  date : String
  startTime : Option String
  duration : Option Int
  completed : Option Nat
deriving DecidableEq, Repr

/-- A raw JSON body for POST /api/notes before zod validation: every
field may be absent.  (Values of the wrong runtime type are rejected by
zod and are outside this embedding.) -/
structure RawNoteInput where
  title : Option String
  description : Option String
  priority : Option Priority
  completed : Option Nat
deriving DecidableEq, Repr

/-- `insertNoteSchema.parse`: `title` is the only required field
(`text("title").notNull()` with no default); every other note column is
nullable or has a database default, hence optional in the zod object.
zod checks presence and type only: any string, including the empty or
whitespace-only string, passes for `title`. -/
def parseInsertNote (raw : RawNoteInput) : Option InsertNote :=
  match raw.title with
  | none => none
  | some t => some ⟨t, raw.description, raw.priority, raw.completed⟩

/-- The backing maps of `MemStorage` (src/server/storage.ts), users
omitted as no claim touches them. -/
structure Store where
  notes : List Note
  tasks : List Task
deriving DecidableEq, Repr

/-- JS truthiness of an optional string: `null`, `undefined` and the
empty string are falsy, every other string is truthy. -/
def jsTruthy (o : Option String) : Bool :=
  match o with
  | none => false
  | some s => s ≠ ""

namespace MemStorage

/-- `MemStorage.createNote`: builds `{...insertNote, id, userId,
createdAt}` and `this.notes.set(id, note)`.  The fresh `id` comes from
`randomUUID()` and `createdAt` from `new Date()`; both are passed in as
parameters.  No validation happens here. -/
def createNote (userId id : String) (now : Nat) (insertNote : InsertNote)
    (s : Store) : Note × Store :=
  let note : Note :=
    { id := id
      userId := userId
      title := insertNote.title
      description := insertNote.description
      priority := insertNote.priority
      completed := insertNote.completed
      createdAt := now }
  (note, { s with notes := note :: s.notes.filter (fun n => n.id ≠ id) })

/-- `MemStorage.deleteNote`: `this.notes.delete(noteId)`, returning
whether the key existed. -/
def deleteNote (noteId : String) (s : Store) : Bool × Store :=
  (s.notes.any (fun n => n.id = noteId),
   { s with notes := s.notes.filter (fun n => n.id ≠ noteId) })

/-- `MemStorage.createTask`: builds `{...insertTask, id, userId,
createdAt}` and `this.tasks.set(id, task)`. -/
def createTask (userId id : String) (now : Nat) (insertTask : InsertTask)
    (s : Store) : Task × Store :=
  let task : Task :=
    { id := id
      userId := userId
      noteId := insertTask.noteId
      title := insertTask.title
      description := insertTask.description
      priority := insertTask.priority
      date := insertTask.date
      startTime := insertTask.startTime
      duration := insertTask.duration
      completed := insertTask.completed
      createdAt := now }
  (task, { s with tasks := task :: s.tasks.filter (fun t => t.id ≠ id) })

/-- The comparator of `MemStorage.getTasks`'s `.sort`: dates first
(`localeCompare`, embedded as lexicographic string comparison), then
the `!a.startTime` / `!b.startTime` truthiness branches — a falsy
startTime (null or the empty string) sorts after a truthy one and ties
with another falsy one — then `a.startTime!.localeCompare
(b.startTime!)`, reached only when both startTimes are truthy, hence
present (`getD ""` stands in for the source's non-null assertion). -/
def taskCmp (a b : Task) : Ordering :=
  if a.date = b.date then
    if !(jsTruthy a.startTime) && jsTruthy b.startTime then .gt
    else if jsTruthy a.startTime && !(jsTruthy b.startTime) then .lt
    else if !(jsTruthy a.startTime) && !(jsTruthy b.startTime) then .eq
    else
      let x := a.startTime.getD ""
      let y := b.startTime.getD ""
      if x < y then .lt else if y < x then .gt else .eq
  else if a.date < b.date then .lt else .gt

/-- The sort relation induced by `taskCmp`: `a` may precede `b`. -/
def taskLe (a b : Task) : Prop := taskCmp a b ≠ .gt

instance : DecidableRel taskLe := fun a b => by
  unfold taskLe; infer_instance

/-- The filter of `MemStorage.getTasks`: keeps tasks of the user, and
when the optional `date` argument is present AND truthy (a non-empty
string — `if (date && task.date !== date)`), only tasks of that date. -/
def getTasksPred (userId : String) (date : Option String) (t : Task) : Bool :=
  if t.userId ≠ userId then false
  else match date with
    | none => true
    | some d => if d ≠ "" ∧ t.date ≠ d then false else true

/-- `MemStorage.getTasks(userId, date?)`: filter then comparison sort.
The JS engine's `Array.prototype.sort` is embedded as insertion sort on
the relation `taskLe`; the comparator is total and transitive, so the
result is a sorted permutation of the filtered list, which is all the
verified properties use. -/
def getTasks (userId : String) (date : Option String) (s : Store) : List Task :=
  (s.tasks.filter (getTasksPred userId date)).insertionSort taskLe

end MemStorage

/-- POST /api/notes (server routes): zod-parse the body, on failure a
400 "Invalid note data" response and no store mutation, on success
`storage.createNote`. -/
def postNotes (userId id : String) (now : Nat) (raw : RawNoteInput)
    (s : Store) : Except String Note × Store :=
  match parseInsertNote raw with
  | none => (.error "Invalid note data", s)
  | some insertNote =>
      let r := MemStorage.createNote userId id now insertNote s
      (.ok r.1, r.2)

/-! ## Date utilities (src/TimeBlocker/client/src/lib/date-utils.ts)

Calendar days are embedded as day numbers: `toN y m d` is the number of
days from 0001-01-01 (proleptic Gregorian) to year `y`, month `m`
(1..12), day `d`.  JS `Date` construction from local calendar fields
together with `setDate` normalization is exactly arithmetic on these
day numbers.  `weekday n = (n + 1) % 7` matches JS `getDay`
(0 = Sunday): 0001-01-01 is a Monday (= 1). -/

/-- Gregorian leap-year rule. -/
def isLeap (y : Nat) : Bool := (y % 4 = 0 ∧ y % 100 ≠ 0) ∨ y % 400 = 0

/-- Length of month `m` (1..12) of year `y`; 0 outside that range. -/
def monthLength (y m : Nat) : Nat :=
  match m with
  | 1 => 31
  | 2 => if isLeap y then 29 else 28
  | 3 => 31
  | 4 => 30
  | 5 => 31
  | 6 => 30
  | 7 => 31
  | 8 => 31
  | 9 => 30
  | 10 => 31
  | 11 => 30
  | 12 => 31
  | _ => 0

/-- Days of year `y` strictly before month `m`. -/
def daysBeforeMonth (y m : Nat) : Nat :=
  ((List.range (m - 1)).map (fun j => monthLength y (j + 1))).sum

/-- Days strictly before year `y` counting from 0001-01-01. -/
def daysBeforeYear (y : Nat) : Nat :=
  (y - 1) * 365 + (y - 1) / 4 - (y - 1) / 100 + (y - 1) / 400

/-- Day number of calendar date (`y`, `m`, `d`): days since 0001-01-01. -/
def toN (y m d : Nat) : Nat := daysBeforeYear y + daysBeforeMonth y m + (d - 1)

/-- JS `getDay` on a day number: 0 = Sunday, ..., 6 = Saturday. -/
def weekday (n : Nat) : Nat := (n + 1) % 7

/-- `getDaysInMonth(date)` of date-utils.ts on the month (`y`, `m`):
take the first of the month, step back to the Monday that starts its
week (`daysToSubtract = dayOfWeek == 0 ? 6 : dayOfWeek - 1`), and emit
42 consecutive days.  (`lastDay` is computed by the source but unused.) -/
def getDaysInMonth (y m : Nat) : List Nat :=
  let firstDay := toN y m 1
  let dayOfWeek := weekday firstDay
  let daysToSubtract := if dayOfWeek = 0 then 6 else dayOfWeek - 1
  let startDate := firstDay - daysToSubtract
  (List.range 42).map (fun i => startDate + i)

/-- Decimal digits with left zero-padding to width `w`. -/
def padNum (w n : Nat) : String :=
  let s := toString n
  if s.length < w then String.mk (List.replicate (w - s.length) '0') ++ s else s

/-- Two-digit zero-padded rendering, as `String.padStart(2, '0')` on a
decimal number. -/
def pad2 (n : Nat) : String := padNum 2 n

/-- "YYYY-MM-DD" rendering of a civil triple. -/
def ymdString (y m d : Nat) : String :=
  padNum 4 y ++ "-" ++ pad2 m ++ "-" ++ pad2 d

/-- Civil date (year, month, day) of a day number (inverse of `toN`),
by the standard 400-year-era computation. -/
def civilFromDayNumber (n : Nat) : Nat × Nat × Nat :=
  let z := n + 306
  let era := z / 146097
  let doe := z % 146097
  let yoe := (doe - doe / 1460 + doe / 36524 - doe / 146096) / 365
  let y := yoe + era * 400
  let doy := doe - (365 * yoe + yoe / 4 - yoe / 100)
  let mp := (5 * doy + 2) / 153
  let d := doy - (153 * mp + 2) / 5 + 1
  let m := if mp < 10 then mp + 3 else mp - 9
  (if m ≤ 2 then y + 1 else y, m, d)

/-- "YYYY-MM-DD" of a day number. -/
def dateKeyOfDayNumber (n : Nat) : String :=
  let c := civilFromDayNumber n
  ymdString c.1 c.2.1 c.2.2

/-- Day number of 1970-01-01, the JS epoch. -/
def epochDayNumber : Nat := toN 1970 1 1

/-- A JS `Date` value: an instant (minutes since the epoch, the
sub-minute part being irrelevant to every claim) plus the environment's
timezone offset in minutes east of UTC (JS `getTimezoneOffset()` is the
negation of this). -/
structure JSDate where
  epochMin : Int
  tzOffsetMin : Int
deriving DecidableEq, Repr

/-- Day number of the instant's UTC calendar day. -/
def JSDate.utcDayNumber (d : JSDate) : Nat :=
  (Int.ofNat epochDayNumber + d.epochMin.fdiv 1440).toNat

/-- Day number of the calendar day the instant denotes in local time. -/
def JSDate.localDayNumber (d : JSDate) : Nat :=
  (Int.ofNat epochDayNumber + (d.epochMin + d.tzOffsetMin).fdiv 1440).toNat

/-- `formatDateString(date)` of date-utils.ts:
`date.toISOString().split("T")[0]` — the date part of the ISO string,
which is computed from the instant's UTC calendar fields. -/
def formatDateString (d : JSDate) : String :=
  dateKeyOfDayNumber d.utcDayNumber

/-- Modelled from the spec: the "YYYY-MM-DD" string of the calendar day
that the date denotes in local time, i.e. the date key derived from
local calendar fields (`getFullYear`/`getMonth`/`getDate`), which §4.2
of the spec requires `dateKey` to equal. -/
def localDateKey (d : JSDate) : String :=
  dateKeyOfDayNumber d.localDayNumber

/-- `getQuarterHours(hour)` of date-utils.ts. -/
def getQuarterHours (hour : Nat) : List String :=
  [pad2 hour ++ ":00", pad2 hour ++ ":15", pad2 hour ++ ":30", pad2 hour ++ ":45"]

/-- Canonical "HH:MM" rendering of hour `h`, minute `m`. -/
def timeString (h m : Nat) : String := pad2 h ++ ":" ++ pad2 m

/-! ## Drop handlers of the Month, Day and Hour views -/

/-- JS `x || undefined` on an optional string: `null`, `undefined` and
`""` are falsy and all become `undefined` (`none`). -/
def jsOrUndefined (o : Option String) : Option String :=
  match o with
  | none => none
  | some s => if s = "" then none else some s

/-- One store request issued by a drop handler. -/
inductive StoreReq where
  | create (it : InsertTask)
  | deleteN (noteId : String)
deriving DecidableEq, Repr

/-- `handleNoteDrop(date, note)` of the Month view (part_001:127-151):
the `createTask` body — `noteId: note.id, title, description:
note.description || undefined, priority, date: formatDateString(date),
startTime: null, duration: null`. -/
def monthDropInsertTask (date : JSDate) (note : Note) : InsertTask :=
  { noteId := some note.id
    title := note.title
    description := jsOrUndefined note.description
    priority := note.priority
    date := formatDateString date
    startTime := none
    duration := none
    completed := none }

/-- The requests the Month-view `handleNoteDrop` issues, in order:
one `createTask` mutation then one `deleteNote` mutation. -/
def monthDropRequests (date : JSDate) (note : Note) : List StoreReq :=
  [.create (monthDropInsertTask date note), .deleteN note.id]

/-- `handleNoteDrop(hour, note)` of the Day view (part_002:125-144):
`startTime` is the zero-padded hour with ":00", `duration: 60`. -/
def dayViewDropInsertTask (date : JSDate) (hour : Nat) (note : Note) : InsertTask :=
  { noteId := some note.id
    title := note.title
    description := jsOrUndefined note.description
    priority := note.priority
    date := formatDateString date
    startTime := some (pad2 hour ++ ":00")
    duration := some 60
    completed := none }

/-- The requests the Day-view `handleNoteDrop` issues, in order. -/
def dayViewDropRequests (date : JSDate) (hour : Nat) (note : Note) : List StoreReq :=
  [.create (dayViewDropInsertTask date hour note), .deleteN note.id]

/-- `handleNoteDrop(quarterIndex, note)` of the Hour view
(part_003:121-141): `minutes = quarterIndex * 15`, `startTime` is the
zero-padded current hour and minutes, `duration: 15`. -/
def hourViewDropInsertTask (date : JSDate) (currentHour quarterIndex : Nat)
    (note : Note) : InsertTask :=
  { noteId := some note.id
    title := note.title
    description := jsOrUndefined note.description
    priority := note.priority
    date := formatDateString date
    startTime := some (pad2 currentHour ++ ":" ++ pad2 (quarterIndex * 15))
    duration := some 15
    completed := none }

/-- The requests the Hour-view `handleNoteDrop` issues, in order. -/
def hourViewDropRequests (date : JSDate) (currentHour quarterIndex : Nat)
    (note : Note) : List StoreReq :=
  [.create (hourViewDropInsertTask date currentHour quarterIndex note), .deleteN note.id]

/-- Apply one drop request to the server store.  `createTask` receives
the fresh `randomUUID` and timestamp as parameters. -/
def applyReq (userId taskId : String) (now : Nat) (s : Store) : StoreReq → Store
  | .create it => (MemStorage.createTask userId taskId now it s).2
  | .deleteN noteId => (MemStorage.deleteNote noteId s).2

/-- Apply a drop handler's requests in order. -/
def applyReqs (userId taskId : String) (now : Nat) (reqs : List StoreReq)
    (s : Store) : Store :=
  reqs.foldl (applyReq userId taskId now) s

/-! ## View-state handlers (src/client/src/pages/app.tsx, part_000) -/

inductive ViewMode where
  | month
  | day
  | hour
deriving DecidableEq, Repr

/-- App component state: `currentDate` (the Month view's visible
month), `selectedDate`, `selectedHour`, `viewMode`. -/
structure AppState where
  currentDate : JSDate
  selectedDate : Option JSDate
  selectedHour : Option Nat
  viewMode : ViewMode
deriving DecidableEq, Repr

/-- `handleDateClick`: select the date, enter Day view. -/
def handleDateClick (date : JSDate) (s : AppState) : AppState :=
  { s with selectedDate := some date, viewMode := .day }

/-- `handleHourClick`: select the hour, enter Hour view. -/
def handleHourClick (hour : Nat) (s : AppState) : AppState :=
  { s with selectedHour := some hour, viewMode := .hour }

/-- `handleCloseDayView`: back to Month view, clear the selected date. -/
def handleCloseDayView (s : AppState) : AppState :=
  { s with viewMode := .month, selectedDate := none }

/-- `handleCloseHourView`: back to Day view, clear the selected hour. -/
def handleCloseHourView (s : AppState) : AppState :=
  { s with viewMode := .day, selectedHour := none }

/-! ## Hour-view hour navigation (part_003:113-119) -/

/-- `handlePreviousHour`: `setCurrentHour(Math.max(0, currentHour - 1))`.
Hours are JS numbers, embedded as `Int`. -/
def handlePreviousHour (currentHour : Int) : Int := max 0 (currentHour - 1)

/-- `handleNextHour`: `setCurrentHour(Math.min(23, currentHour + 1))`. -/
def handleNextHour (currentHour : Int) : Int := min 23 (currentHour + 1)

/-- One Hour-view navigation action. -/
inductive HourNav where
  | previous
  | next
deriving DecidableEq, Repr

/-- Run a sequence of Hour-view navigation actions. -/
def runHourNav (acts : List HourNav) (h : Int) : Int :=
  acts.foldl (fun h a => match a with
    | .previous => handlePreviousHour h
    | .next => handleNextHour h) h

/-! ## Drag-drop hook (src/client/src/hooks/use-drag-drop.tsx) -/

/-- Observable outcome of one `handleDrop` call: the notes passed to
the consumer callback, the toast notices raised, and whether the
highlight cleanup ran. -/
structure DropOutcome where
  invoked : List Note
  successToasts : Nat
  errorToasts : Nat
  highlightsCleared : Bool
deriving DecidableEq, Repr

/-- `handleDrop(event, onDrop)`: read
`event.dataTransfer?.getData("application/json")` (embedded as
`payload`: `none` when `dataTransfer` is absent, `some ""` when no data
was set — both falsy), and inside a try/catch: if the payload is
truthy, `JSON.parse` it (embedded as the `parse` argument, `Except`
error = thrown exception), call `onDrop(note)` and raise the success
toast; a thrown parse error is caught and raises the destructive
"Failed to schedule task" toast; a falsy payload does nothing.  The
drop-zone highlight cleanup runs after the try/catch on every path. -/
def handleDrop (parse : String → Except Unit Note) (payload : Option String) :
    DropOutcome :=
  let body : DropOutcome :=
    match payload with
    | none => ⟨[], 0, 0, false⟩
    | some s =>
        if s = "" then ⟨[], 0, 0, false⟩
        else match parse s with
          | .error _ => ⟨[], 0, 1, false⟩
          | .ok note => ⟨[note], 1, 0, false⟩
  { body with highlightsCleared := true }

/-- The ordering the spec ascribes to `startTime` slots within one
date: scheduled (present) times ascend by string comparison, and every
scheduled time precedes every unscheduled (absent) one. -/
def schedLe : Option String → Option String → Prop
  | some x, some y => x ≤ y
  | some _, none => True
  | none, none => True
  | none, some _ => False

instance : ∀ a b, Decidable (schedLe a b) := fun a b => by
  cases a <;> cases b <;> unfold schedLe <;> infer_instance

/-- A sample stored task used by concrete counterexamples. -/
def sampleTask : Task :=
  { id := "t0"
    userId := "u"
    noteId := none
    title := "x"
    description := none
    priority := some .medium
    date := "2024-01-01"
    startTime := none
    duration := none
    completed := some 0
    createdAt := 0 }

/-- The startTime of a task as the sort comparator observes it: a
JS-falsy startTime (absent or the empty string) counts as
unscheduled. -/
def effectiveStartTime (t : Task) : Option String :=
  if jsTruthy t.startTime then t.startTime else none

/-- A sample task whose startTime is the empty string (accepted by
`insertTaskSchema`, since `start_time` is a nullable text column),
dated like `sampleTask`. -/
def emptyStartTimeTask : Task :=
  { id := "t3"
    userId := "u"
    noteId := none
    title := "w"
    description := none
    priority := some .medium
    date := "2024-01-01"
    startTime := some ""
    duration := none
    completed := some 0
    createdAt := 0 }

/-- A sample scheduled task on the same date as `sampleTask`. -/
def scheduledSampleTask : Task :=
  { id := "t1"
    userId := "u"
    noteId := none
    title := "y"
    description := none
    priority := some .low
    date := "2024-01-01"
    startTime := some "10:00"
    duration := some 60
    completed := some 0
    createdAt := 0 }

/-- A sample task on a later date. -/
def laterSampleTask : Task :=
  { id := "t2"
    userId := "u"
    noteId := none
    title := "z"
    description := none
    priority := some .high
    date := "2024-01-02"
    startTime := some "08:00"
    duration := some 15
    completed := some 0
    createdAt := 0 }

/-- A sample drawer note whose description is the empty string. -/
def emptyDescriptionNote : Note :=
  { id := "n1"
    userId := "u"
    title := "Write report"
    description := some ""
    priority := some .high
    completed := some 0
    createdAt := 0 }

end Timeblock

namespace Timeblock

/-! ## Helper lemmas -/

theorem length_filter_not_add (p : α → Bool) (l : List α) :
    (l.filter (fun a => !(p a))).length + (l.filter p).length = l.length := by
  induction l with
  | nil => rfl
  | cons x xs ih =>
    by_cases hx : p x = true <;> simp [List.filter_cons, hx] <;> omega

theorem monthLength_le (y m : Nat) : monthLength y m ≤ 31 := by
  unfold monthLength
  split <;> first | omega | (split <;> omega)

theorem filter_ne_length (key : α → String) (v : String) (l : List α)
    (h : (l.filter (fun a => key a = v)).length = 1) :
    (l.filter (fun a => key a ≠ v)).length + 1 = l.length := by
  have h2 := length_filter_not_add (fun a => decide (key a = v)) l
  have h3 : l.filter (fun a => key a ≠ v)
      = l.filter (fun a => !(decide (key a = v))) := by
    apply List.filter_congr
    intro a _
    simp
  rw [h3]
  omega

theorem fresh_task_filter (taskId : String) (l : List Task)
    (hfresh : ∀ t ∈ l, t.id ≠ taskId) :
    l.filter (fun t => t.id ≠ taskId) = l := by
  apply List.filter_eq_self.mpr
  intro t ht
  simpa using hfresh t ht

theorem fresh_note_filter (noteId : String) (l : List Note)
    (hfresh : ∀ n ∈ l, n.id ≠ noteId) :
    l.filter (fun n => n.id ≠ noteId) = l := by
  apply List.filter_eq_self.mpr
  intro n hn
  simpa using hfresh n hn

theorem schedLe_trans (x y z : Option String) :
    schedLe x y → schedLe y z → schedLe x z := by
  cases x <;> cases y <;> cases z <;> simp only [schedLe] <;>
    first
      | exact fun _ _ => trivial
      | exact fun h _ => h.elim
      | exact fun _ h => h.elim
      | exact fun h1 h2 => le_trans h1 h2

theorem schedLe_total (x y : Option String) : schedLe x y ∨ schedLe y x := by
  cases x <;> cases y <;> simp only [schedLe] <;>
    first
      | exact Or.inl trivial
      | exact Or.inr trivial
      | exact le_total _ _

theorem taskLe_iff (a b : Task) :
    MemStorage.taskLe a b ↔
      (a.date < b.date
        ∨ (a.date = b.date
            ∧ schedLe (effectiveStartTime a) (effectiveStartTime b))) := by
  by_cases hd : a.date = b.date
  · cases ha : a.startTime with
    | none =>
      cases hb : b.startTime with
      | none =>
        simp [MemStorage.taskLe, MemStorage.taskCmp, effectiveStartTime, jsTruthy,
          schedLe, ha, hb, hd, lt_irrefl]
      | some y =>
        by_cases hy : y = "" <;>
          simp [MemStorage.taskLe, MemStorage.taskCmp, effectiveStartTime, jsTruthy,
            schedLe, ha, hb, hy, hd, lt_irrefl]
    | some x =>
      cases hb : b.startTime with
      | none =>
        by_cases hx : x = "" <;>
          simp [MemStorage.taskLe, MemStorage.taskCmp, effectiveStartTime, jsTruthy,
            schedLe, ha, hb, hx, hd, lt_irrefl]
      | some y =>
        by_cases hx : x = ""
        · by_cases hy : y = "" <;>
            simp [MemStorage.taskLe, MemStorage.taskCmp, effectiveStartTime, jsTruthy,
              schedLe, ha, hb, hx, hy, hd, lt_irrefl]
        · by_cases hy : y = ""
          · simp [MemStorage.taskLe, MemStorage.taskCmp, effectiveStartTime, jsTruthy,
              schedLe, ha, hb, hx, hy, hd, lt_irrefl]
          · have hstep : MemStorage.taskCmp a b
                = (if x < y then Ordering.lt
                   else if y < x then Ordering.gt else Ordering.eq) := by
              simp [MemStorage.taskCmp, jsTruthy, ha, hb, hx, hy, hd]
            unfold MemStorage.taskLe
            rw [hstep]
            split_ifs with h1 h2
            · simp [effectiveStartTime, jsTruthy, schedLe, ha, hb, hx, hy, hd,
                le_of_lt h1]
            · simp [effectiveStartTime, jsTruthy, schedLe, ha, hb, hx, hy, hd,
                not_le.mpr h2, lt_irrefl]
            · simp [effectiveStartTime, jsTruthy, schedLe, ha, hb, hx, hy, hd,
                le_of_not_lt h2, lt_irrefl]
  · have hdate : MemStorage.taskLe a b ↔ a.date < b.date := by
      unfold MemStorage.taskLe MemStorage.taskCmp
      rw [if_neg hd]
      split_ifs with hlt
      · simp [hlt]
      · simp [hlt]
    rw [hdate]
    constructor
    · exact fun h => Or.inl h
    · rintro (h | ⟨heq, _⟩)
      · exact h
      · exact absurd heq hd

instance : IsTrans Task MemStorage.taskLe where
  trans a b c hab hbc := by
    rw [taskLe_iff] at hab hbc ⊢
    rcases hab with hab | ⟨hab, sab⟩ <;> rcases hbc with hbc | ⟨hbc, sbc⟩
    · exact Or.inl (lt_trans hab hbc)
    · exact Or.inl (hbc ▸ hab)
    · exact Or.inl (hab ▸ hbc)
    · exact Or.inr ⟨hab.trans hbc, schedLe_trans _ _ _ sab sbc⟩

instance : IsTotal Task MemStorage.taskLe where
  total a b := by
    rw [taskLe_iff, taskLe_iff]
    rcases lt_trichotomy a.date b.date with h | h | h
    · exact Or.inl (Or.inl h)
    · rcases schedLe_total (effectiveStartTime a) (effectiveStartTime b) with hs | hs
      · exact Or.inl (Or.inr ⟨h, hs⟩)
      · exact Or.inr (Or.inr ⟨h.symm, hs⟩)
    · exact Or.inr (Or.inl h)

/-! ## Claim theorems -/

/-- C9: closing Hour view transitions to Day view with the selected
date and the visible month unchanged and only the selected hour
cleared; closing Day view transitions to Month view with the selected
date cleared and `currentDate` (the visible month) unchanged, so after
entering Day view (and possibly Hour view) and closing again,
`currentDate` is exactly the value it had before Day view was
entered. -/
theorem close_view_preserves_navigation_context :
    ∀ (s : AppState) (d : JSDate) (h : Nat),
      ((handleCloseHourView s).viewMode = .day
        ∧ (handleCloseHourView s).selectedDate = s.selectedDate
        ∧ (handleCloseHourView s).selectedHour = none
        ∧ (handleCloseHourView s).currentDate = s.currentDate)
      ∧ ((handleCloseDayView s).viewMode = .month
        ∧ (handleCloseDayView s).selectedDate = none
        ∧ (handleCloseDayView s).currentDate = s.currentDate)
      ∧ (handleCloseDayView (handleDateClick d s)).currentDate = s.currentDate
      ∧ (handleCloseDayView (handleCloseHourView
          (handleHourClick h (handleDateClick d s)))).currentDate = s.currentDate :=
  fun _ _ _ => ⟨⟨rfl, rfl, rfl, rfl⟩, ⟨rfl, rfl, rfl⟩, rfl, rfl⟩

/-- C10: starting from any hour in 0..23, every sequence of
previous/next hour navigation actions keeps the displayed hour in
0..23, and the navigation clamps: previous at hour 0 and next at hour
23 leave the hour unchanged. -/
theorem hour_navigation_stays_in_bounds (h : Int) (h0 : 0 ≤ h) (h23 : h ≤ 23) :
    (∀ acts : List HourNav, 0 ≤ runHourNav acts h ∧ runHourNav acts h ≤ 23)
    ∧ handlePreviousHour 0 = 0 ∧ handleNextHour 23 = 23 := by
  refine ⟨?_, by decide, by decide⟩
  intro acts
  induction acts generalizing h with
  | nil => exact ⟨h0, h23⟩
  | cons a rest ih =>
    have step : ∀ g : Int, 0 ≤ g → g ≤ 23 →
        (0 ≤ (match a with
            | HourNav.previous => handlePreviousHour g
            | HourNav.next => handleNextHour g)
          ∧ (match a with
            | HourNav.previous => handlePreviousHour g
            | HourNav.next => handleNextHour g) ≤ 23) := by
      intro g hg0 hg23
      cases a <;>
        simp only [handlePreviousHour, handleNextHour] <;>
        constructor <;> omega
    have hs := step h h0 h23
    have := ih _ hs.1 hs.2
    simpa [runHourNav, List.foldl] using this

/-- C10 witness: the bounds hold concretely starting from hour 5. -/
theorem hour_navigation_stays_in_bounds_witness :
    (∀ acts : List HourNav, 0 ≤ runHourNav acts 5 ∧ runHourNav acts 5 ≤ 23)
    ∧ handlePreviousHour 0 = 0 ∧ handleNextHour 23 = 23 :=
  hour_navigation_stays_in_bounds 5 (by decide) (by decide)

/-- C6 counterexample: a whitespace-only title passes the zod boundary
(`z.string()` has no minimum length) and `MemStorage.createNote` does
no validation of its own, so the request succeeds and the store gains
a note — the claim's rejection does not happen. -/
theorem createNote_accepts_whitespace_title :
    (postNotes "u" "n9" 0 ⟨some "   ", none, none, none⟩ (Store.mk [] [])).1
      = Except.ok
          { id := "n9"
            userId := "u"
            title := "   "
            description := none
            priority := none
            completed := none
            createdAt := 0 }
    ∧ ((postNotes "u" "n9" 0 ⟨some "   ", none, none, none⟩
        (Store.mk [] [])).2).notes.length = 1 :=
  ⟨rfl, rfl⟩

/-- C6 (amended): the note-creation path rejects exactly the inputs
whose title field is missing — rejection leaves the store unchanged —
while an input whose title is any string, including the empty or
whitespace-only string, is accepted and appends a note to the Notes
collection. -/
theorem createNote_rejects_only_missing_title (userId id : String) (now : Nat)
    (raw : RawNoteInput) (s : Store) (hfresh : ∀ n ∈ s.notes, n.id ≠ id) :
    ((postNotes userId id now raw s).1.isOk = false ↔ raw.title = none)
    ∧ (raw.title = none → (postNotes userId id now raw s).2 = s)
    ∧ (raw.title ≠ none →
        ((postNotes userId id now raw s).2).notes.length = s.notes.length + 1) := by
  cases hraw : raw.title with
  | none =>
    refine ⟨by simp [postNotes, parseInsertNote, hraw, Except.isOk, Except.toBool], ?_, ?_⟩
    · intro _
      simp [postNotes, parseInsertNote, hraw]
    · intro h
      exact absurd rfl h
  | some t =>
    refine ⟨by simp [postNotes, parseInsertNote, hraw, Except.isOk, Except.toBool], ?_, ?_⟩
    · intro h
      exact Option.noConfusion h
    · intro _
      simp only [postNotes, parseInsertNote, hraw]
      show (_ :: s.notes.filter (fun n => n.id ≠ id)).length = s.notes.length + 1
      rw [fresh_note_filter id s.notes hfresh]
      simp

/-- C6 witness: a missing title is rejected without mutation and a
present title appends a note, on concrete inputs. -/
theorem createNote_rejects_only_missing_title_witness :
    ((postNotes "u" "n8" 0 ⟨none, none, none, none⟩ (Store.mk [] [])).1.isOk = false
      ↔ (⟨none, none, none, none⟩ : RawNoteInput).title = none)
    ∧ ((⟨none, none, none, none⟩ : RawNoteInput).title = none →
        (postNotes "u" "n8" 0 ⟨none, none, none, none⟩ (Store.mk [] [])).2
          = Store.mk [] [])
    ∧ ((⟨none, none, none, none⟩ : RawNoteInput).title ≠ none →
        ((postNotes "u" "n8" 0 ⟨none, none, none, none⟩
          (Store.mk [] [])).2).notes.length = (Store.mk [] [] : Store).notes.length + 1) :=
  createNote_rejects_only_missing_title "u" "n8" 0 ⟨none, none, none, none⟩
    (Store.mk [] []) (by decide)

/-- C8 counterexample: a drop event with a missing payload
(`dataTransfer` absent) is silently ignored by `handleDrop`: no
callback, no toast at all — in particular no error notice, contrary to
the claim that the failure is surfaced to the user. -/
theorem drop_missing_payload_silently_ignored :
    (handleDrop (fun _ => Except.error ()) none).errorToasts = 0
    ∧ (handleDrop (fun _ => Except.error ()) none).invoked = []
    ∧ (handleDrop (fun _ => Except.error ()) none).successToasts = 0
    ∧ (handleDrop (fun _ => Except.error ()) none).highlightsCleared = true :=
  ⟨rfl, rfl, rfl, rfl⟩

/-- C8 (amended): on a malformed payload (JSON parse throws) the drop
handler invokes no consumer callback, performs no store mutation (the
handler issues none except through the callback), raises exactly one
recoverable error notice, and clears the drop-zone highlights; on a
missing or empty payload it also invokes no callback and clears the
highlights but is silently ignored — no notice of any kind is shown. -/
theorem handleDrop_malformed_or_missing_payload
    (parse : String → Except Unit Note) (payload : Option String) :
    ((payload = none ∨ payload = some "") →
        handleDrop parse payload = ⟨[], 0, 0, true⟩)
    ∧ (∀ s e, payload = some s → s ≠ "" → parse s = .error e →
        handleDrop parse payload = ⟨[], 0, 1, true⟩) := by
  constructor
  · rintro (rfl | rfl) <;> rfl
  · rintro s e rfl hs hp
    simp [handleDrop, hs, hp]

/-- C8 witness: concrete malformed payload "notjson" with a failing
parse, and a concrete missing payload. -/
theorem handleDrop_malformed_or_missing_payload_witness :
    handleDrop (fun _ => Except.error ()) (some "notjson") = ⟨[], 0, 1, true⟩
    ∧ handleDrop (fun _ => Except.error ()) none = ⟨[], 0, 0, true⟩ :=
  ⟨(handleDrop_malformed_or_missing_payload (fun _ => Except.error ())
      (some "notjson")).2 "notjson" () rfl (by decide) rfl,
   (handleDrop_malformed_or_missing_payload (fun _ => Except.error ())
      none).1 (Or.inl rfl)⟩

/-- C5: `formatDateString` is computed through `toISOString`, a UTC
conversion, not from local calendar fields.  At the instant
2024-03-09 23:30 UTC observed from a UTC+01:00 environment (local
calendar day 2024-03-10, 00:30), the code returns the UTC day
"2024-03-09" instead of the local calendar day "2024-03-10" that the
claim requires. -/
theorem formatDateString_uses_utc_not_local_fields :
    formatDateString
        ⟨((toN 2024 3 9 : Int) - (epochDayNumber : Int)) * 1440 + 1410, 60⟩
      = "2024-03-09"
    ∧ localDateKey
        ⟨((toN 2024 3 9 : Int) - (epochDayNumber : Int)) * 1440 + 1410, 60⟩
      = "2024-03-10"
    ∧ formatDateString
        ⟨((toN 2024 3 9 : Int) - (epochDayNumber : Int)) * 1440 + 1410, 60⟩
      ≠ localDateKey
        ⟨((toN 2024 3 9 : Int) - (epochDayNumber : Int)) * 1440 + 1410, 60⟩ :=
  ⟨by decide, by decide, by decide⟩

/-- C7: `MemStorage.createNote` spreads the parsed insert payload
as-is and never applies the schema's declared column defaults: a valid
input that leaves `priority` and `completed` unspecified produces a
stored Note whose `priority` is absent (not "medium") and whose
`completed` is absent (not 0).  The note does carry the newly assigned
id. -/
theorem createNote_skips_declared_defaults :
    (postNotes "demo-user-id" "note-1" 0
        ⟨some "Write report", none, none, none⟩ ⟨[], []⟩).1
      = Except.ok
          { id := "note-1"
            userId := "demo-user-id"
            title := "Write report"
            description := none
            priority := none
            completed := none
            createdAt := 0 }
    ∧ (∀ n : Note,
        (postNotes "demo-user-id" "note-1" 0
            ⟨some "Write report", none, none, none⟩ ⟨[], []⟩).1 = Except.ok n →
          n.priority ≠ some Priority.medium ∧ n.completed ≠ some 0 ∧ n.id = "note-1") := by
  constructor
  · rfl
  · intro n hn
    have h0 : (postNotes "demo-user-id" "note-1" 0
        ⟨some "Write report", none, none, none⟩ ⟨[], []⟩).1
      = Except.ok
          ({ id := "note-1", userId := "demo-user-id", title := "Write report",
             description := none, priority := none, completed := none,
             createdAt := 0 } : Note) := rfl
    rw [h0] at hn
    cases hn
    exact ⟨by decide, by decide, rfl⟩

/-- C1 counterexample: the Month-view drop does not copy an
empty-string description: `note.description || undefined` turns `""`
into `undefined`, so the created task's description differs from the
note's. -/
theorem month_drop_drops_empty_description :
    emptyDescriptionNote.description = some ""
    ∧ (monthDropInsertTask ⟨0, 0⟩ emptyDescriptionNote).description
        ≠ emptyDescriptionNote.description :=
  ⟨rfl, by decide⟩

/-- C1 (amended): a Note dropped on a Month-view day cell issues
exactly one `createTask` — whose task has `date` the date key of the
cell, `noteId` the note's id, `startTime` and `duration` null, and
title/priority copied from the note, the description copied when it is
a non-empty string and stored as absent when it is null or empty — and
exactly one `deleteNote` of the note's id, so after both mutations the
Notes collection has one fewer note and the Tasks collection one more
task. -/
theorem month_drop_converts_note_to_day_task (date : JSDate) (n : Note)
    (s : Store) (userId taskId : String) (now : Nat)
    (hnote : (s.notes.filter (fun x => x.id = n.id)).length = 1)
    (hfresh : ∀ t ∈ s.tasks, t.id ≠ taskId) :
    (monthDropRequests date n).countP
        (fun r => match r with | .create _ => true | .deleteN _ => false) = 1
    ∧ (monthDropRequests date n).countP
        (fun r => match r with | .create _ => false | .deleteN i => i == n.id) = 1
    ∧ (monthDropInsertTask date n).date = formatDateString date
    ∧ (monthDropInsertTask date n).noteId = some n.id
    ∧ (monthDropInsertTask date n).startTime = none
    ∧ (monthDropInsertTask date n).duration = none
    ∧ (monthDropInsertTask date n).title = n.title
    ∧ (monthDropInsertTask date n).priority = n.priority
    ∧ (∀ str, n.description = some str → str ≠ "" →
        (monthDropInsertTask date n).description = some str)
    ∧ ((n.description = none ∨ n.description = some "") →
        (monthDropInsertTask date n).description = none)
    ∧ (applyReqs userId taskId now (monthDropRequests date n) s).notes.length + 1
        = s.notes.length
    ∧ (applyReqs userId taskId now (monthDropRequests date n) s).tasks.length
        = s.tasks.length + 1 := by
  refine ⟨?_, ?_, rfl, rfl, rfl, rfl, rfl, rfl, ?_, ?_, ?_, ?_⟩
  · simp [monthDropRequests, List.countP, List.countP.go]
  · simp [monthDropRequests, List.countP, List.countP.go]
  · intro str hstr hne
    simp [monthDropInsertTask, jsOrUndefined, hstr, hne]
  · intro hd
    rcases hd with hd | hd <;> simp [monthDropInsertTask, jsOrUndefined, hd]
  · show ((MemStorage.deleteNote n.id
        (MemStorage.createTask userId taskId now (monthDropInsertTask date n) s).2).2).notes.length
        + 1 = s.notes.length
    show (s.notes.filter (fun x => x.id ≠ n.id)).length + 1 = s.notes.length
    exact filter_ne_length (fun x => x.id) n.id s.notes hnote
  · show ((MemStorage.deleteNote n.id
        (MemStorage.createTask userId taskId now (monthDropInsertTask date n) s).2).2).tasks.length
        = s.tasks.length + 1
    show ((MemStorage.createTask userId taskId now (monthDropInsertTask date n) s).2).tasks.length
        = s.tasks.length + 1
    show (_ :: s.tasks.filter (fun t => t.id ≠ taskId)).length = s.tasks.length + 1
    rw [fresh_task_filter taskId s.tasks hfresh]
    simp

/-- C1 witness: the conversion behaves as stated on a concrete
one-note store. -/
theorem month_drop_converts_note_to_day_task_witness :
    ((Store.mk [emptyDescriptionNote] []).notes.filter
        (fun x => x.id = emptyDescriptionNote.id)).length = 1
    ∧ (applyReqs "u" "t9" 0
        (monthDropRequests ⟨0, 0⟩ emptyDescriptionNote)
        (Store.mk [emptyDescriptionNote] [])).notes.length + 1
      = (Store.mk [emptyDescriptionNote] []).notes.length :=
  ⟨by decide,
   (month_drop_converts_note_to_day_task ⟨0, 0⟩ emptyDescriptionNote
      (Store.mk [emptyDescriptionNote] []) "u" "t9" 0
      (by decide) (by decide)).2.2.2.2.2.2.2.2.2.2.1⟩

/-- C2: a Note dropped on hour row H of the Day view yields a task
whose startTime is the "HH:MM" string for hour H, minute 0, with
duration 60; a Note dropped on quarter index Q of hour H in the Hour
view yields startTime for hour H, minute Q*15, with duration 15; in
both flows the handler's second mutation deletes the source note, so
it is gone from the Notes collection afterwards. -/
theorem drop_on_hour_and_quarter_schedules_task (date : JSDate) (H Q : Nat)
    (_hH : H ≤ 23) (_hQ : Q ≤ 3) (n : Note) (s : Store)
    (userId taskId : String) (now : Nat) :
    (dayViewDropInsertTask date H n).startTime = some (timeString H 0)
    ∧ (dayViewDropInsertTask date H n).duration = some 60
    ∧ (dayViewDropInsertTask date H n).noteId = some n.id
    ∧ (hourViewDropInsertTask date H Q n).startTime = some (timeString H (Q * 15))
    ∧ (hourViewDropInsertTask date H Q n).duration = some 15
    ∧ (hourViewDropInsertTask date H Q n).noteId = some n.id
    ∧ (∀ x ∈ (applyReqs userId taskId now (dayViewDropRequests date H n) s).notes,
        x.id ≠ n.id)
    ∧ (∀ x ∈ (applyReqs userId taskId now (hourViewDropRequests date H Q n) s).notes,
        x.id ≠ n.id) := by
  refine ⟨?_, rfl, rfl, rfl, rfl, rfl, ?_, ?_⟩
  · show some (pad2 H ++ ":00") = some (pad2 H ++ ":" ++ pad2 0)
    rw [String.append_assoc]
    rfl
  · intro x hx
    have : x ∈ (((MemStorage.createTask userId taskId now
        (dayViewDropInsertTask date H n) s).2).notes.filter
          (fun z => z.id ≠ n.id)) := hx
    simpa using (List.mem_filter.mp this).2
  · intro x hx
    have : x ∈ (((MemStorage.createTask userId taskId now
        (hourViewDropInsertTask date H Q n) s).2).notes.filter
          (fun z => z.id ≠ n.id)) := hx
    simpa using (List.mem_filter.mp this).2

/-- C2 witness: concrete drop of a note on hour 14 and on quarter 2 of
hour 14. -/
theorem drop_on_hour_and_quarter_schedules_task_witness :
    (dayViewDropInsertTask ⟨0, 0⟩ 14 emptyDescriptionNote).startTime
        = some (timeString 14 0)
    ∧ (hourViewDropInsertTask ⟨0, 0⟩ 14 2 emptyDescriptionNote).startTime
        = some (timeString 14 (2 * 15)) :=
  ⟨(drop_on_hour_and_quarter_schedules_task ⟨0, 0⟩ 14 2 (by decide) (by decide)
      emptyDescriptionNote (Store.mk [] []) "u" "t9" 0).1,
   (drop_on_hour_and_quarter_schedules_task ⟨0, 0⟩ 14 2 (by decide) (by decide)
      emptyDescriptionNote (Store.mk [] []) "u" "t9" 0).2.2.2.1⟩

/-- C3 counterexample: two JS-truthiness failures of the claim as
stated.  (1) `getTasks` called with the given date `""` (present but
falsy) skips the date filter entirely and returns a task whose date is
not `""`, so "when d is given, date = d" fails for `d = ""`.
(2) A task whose startTime is the empty string has startTime present,
so the claim sorts it as scheduled, ascending by startTime — before
"10:00" — but the comparator's `!a.startTime` treats the empty string
as unscheduled and the code returns it after the "10:00" task. -/
theorem getTasks_truthiness_counterexample :
    (MemStorage.getTasks "u" (some "") (Store.mk [] [sampleTask]) = [sampleTask]
      ∧ sampleTask.date ≠ "")
    ∧ (MemStorage.getTasks "u" none
          (Store.mk [] [emptyStartTimeTask, scheduledSampleTask])
        = [scheduledSampleTask, emptyStartTimeTask]
      ∧ emptyStartTimeTask.startTime = some ""
      ∧ scheduledSampleTask.startTime = some "10:00"
      ∧ emptyStartTimeTask.date = scheduledSampleTask.date
      ∧ ("" : String) < "10:00") :=
  ⟨⟨rfl, by decide⟩, rfl, rfl, rfl, rfl,
   by simp [String.lt_iff]; exact List.nil_lt_cons _ _⟩

/-- C3 (amended): for every user id and optional date that is not the
empty string, `getTasks` returns exactly the stored tasks with that
userId (and, when the date is given, that exact date) — stated as a
permutation of the corresponding filter — sorted with date ascending
by string comparison as primary key and, within equal dates, all
scheduled tasks (non-empty startTime) before all unscheduled ones
(startTime absent or the empty string), scheduled tasks ascending by
startTime string comparison.  (When the given date is the empty string
the code skips the date filter, and an empty-string startTime is falsy
in the comparator and sorts as unscheduled, see the counterexample.) -/
theorem getTasks_filters_and_sorts (userId : String) (d : Option String)
    (s : Store) (hd : d ≠ some "") :
    List.Perm (MemStorage.getTasks userId d s)
      (s.tasks.filter
        (fun t => decide (t.userId = userId ∧ (d = none ∨ d = some t.date))))
    ∧ List.Pairwise
        (fun a b => a.date < b.date
          ∨ (a.date = b.date ∧ schedLe (effectiveStartTime a) (effectiveStartTime b)))
        (MemStorage.getTasks userId d s) := by
  constructor
  · have hperm := List.perm_insertionSort MemStorage.taskLe
      (s.tasks.filter (MemStorage.getTasksPred userId d))
    have heq : s.tasks.filter (MemStorage.getTasksPred userId d)
        = s.tasks.filter
            (fun t => decide (t.userId = userId ∧ (d = none ∨ d = some t.date))) := by
      apply List.filter_congr
      intro t _
      unfold MemStorage.getTasksPred
      by_cases hu : t.userId = userId
      · cases d with
        | none => simp [hu]
        | some dstr =>
          have hne : dstr ≠ "" := fun h => hd (by rw [h])
          by_cases hdate : t.date = dstr
          · simp [hu, hne, hdate]
          · simp only [hu, hne, hdate, if_neg, ne_eq, not_false_eq_true, not_true_eq_false,
              decide_eq_decide]
            simp [hne, hdate]
            exact fun h => hdate h.symm
      · cases d <;> simp [hu]
    exact heq ▸ hperm
  · exact (List.sorted_insertionSort MemStorage.taskLe _).imp
      (fun hab => (taskLe_iff _ _).mp hab)

/-- C3 witness: the amended statement holds concretely on a four-task
store — including a task with an empty-string startTime — queried with
no date filter. -/
theorem getTasks_filters_and_sorts_witness :
    List.Perm
      (MemStorage.getTasks "u" none
        (Store.mk []
          [laterSampleTask, emptyStartTimeTask, sampleTask, scheduledSampleTask]))
      ((Store.mk []
          [laterSampleTask, emptyStartTimeTask, sampleTask, scheduledSampleTask]).tasks.filter
        (fun t => decide (t.userId = "u"
          ∧ ((none : Option String) = none ∨ none = some t.date))))
    ∧ List.Pairwise
        (fun a b => a.date < b.date
          ∨ (a.date = b.date ∧ schedLe (effectiveStartTime a) (effectiveStartTime b)))
        (MemStorage.getTasks "u" none
          (Store.mk []
            [laterSampleTask, emptyStartTimeTask, sampleTask, scheduledSampleTask])) :=
  getTasks_filters_and_sorts "u" none
    (Store.mk []
      [laterSampleTask, emptyStartTimeTask, sampleTask, scheduledSampleTask])
    (by decide)

/-- C4: for every month (year ≥ 1, month 1..12), `getDaysInMonth`
returns exactly 42 dates, the first of which is a Monday (JS `getDay`
value 1), the sequence is contiguous (each entry is exactly one
calendar day after the previous), and the 42 entries cover every day
of that month. -/
theorem getDaysInMonth_is_42_day_monday_grid (y m : Nat)
    (_hy : 1 ≤ y) (_hm1 : 1 ≤ m) (_hm2 : m ≤ 12) :
    (getDaysInMonth y m).length = 42
    ∧ weekday ((getDaysInMonth y m).getD 0 0) = 1
    ∧ (∀ i, i < 41 →
        (getDaysInMonth y m).getD (i + 1) 0 = (getDaysInMonth y m).getD i 0 + 1)
    ∧ (∀ d, 1 ≤ d → d ≤ monthLength y m → toN y m d ∈ getDaysInMonth y m) := by
  have h7 : 0 < 7 := by norm_num
  set f := toN y m 1 with hf
  set w := weekday f with hw
  set dts := if w = 0 then 6 else w - 1 with hdts
  have hgrid : getDaysInMonth y m = (List.range 42).map (fun i => (f - dts) + i) := rfl
  have hwlt : w < 7 := by
    rw [hw]; exact Nat.mod_lt _ h7
  have hwmod : w = (f + 1) % 7 := hw
  have hdle : dts ≤ 6 := by
    rw [hdts]; split <;> omega
  have hdf : dts ≤ f := by
    rw [hdts]; split <;> omega
  have hget : ∀ i, i < 42 → (getDaysInMonth y m).getD i 0 = (f - dts) + i := by
    intro i hi
    rw [hgrid, List.getD_eq_getElem?_getD, List.getElem?_map, List.getElem?_range hi]
    rfl
  refine ⟨by rw [hgrid]; simp, ?_, ?_, ?_⟩
  · rw [hget 0 (by norm_num)]
    show ((f - dts) + 0 + 1) % 7 = 1
    by_cases h0 : w = 0
    · have hf0 : (f + 1) % 7 = 0 := by rw [← hwmod, h0]
      rw [hdts, if_pos h0]
      omega
    · rw [hdts, if_neg h0]
      rw [hwmod] at h0 hwlt ⊢
      omega
  · intro i hi
    rw [hget (i + 1) (by omega), hget i (by omega)]
    omega
  · intro d hd1 hd2
    have hml : monthLength y m ≤ 31 := monthLength_le y m
    have htoN : toN y m d = f + (d - 1) := by
      rw [hf]; unfold toN; omega
    rw [hgrid]
    simp only [List.mem_map, List.mem_range]
    exact ⟨dts + (d - 1), by omega, by omega⟩

/-- C4 witness: the grid properties hold concretely for February 2024. -/
theorem getDaysInMonth_is_42_day_monday_grid_witness :
    (getDaysInMonth 2024 2).length = 42
    ∧ weekday ((getDaysInMonth 2024 2).getD 0 0) = 1
    ∧ (∀ i, i < 41 →
        (getDaysInMonth 2024 2).getD (i + 1) 0 = (getDaysInMonth 2024 2).getD i 0 + 1)
    ∧ (∀ d, 1 ≤ d → d ≤ monthLength 2024 2 → toN 2024 2 d ∈ getDaysInMonth 2024 2) :=
  getDaysInMonth_is_42_day_monday_grid 2024 2 (by decide) (by decide) (by decide)

end Timeblock
